import Mathlib

/-!
Verification of the requisition-printing app's synchronization, diffing,
notification, presentation-ordering and status-transition logic.

The definitions below are a shallow embedding of the corresponding
TypeScript source (`src/App.tsx` and the database service module):

* JS `Set<string>` values are represented by their insertion-ordered,
  duplicate-free element lists;
* the async fetch of `fetchDatabaseRecords` is represented by an explicit
  `Option (List DocumentData)` argument (`none` models a rejected promise);
* React state updates inside one invocation are collapsed into a single
  state-transition function returning the new state together with an
  `Effects` value recording the user-visible side channels that fired
  (sound, desktop notifications, toasts).
-/

/-- A requisition record as the app holds it (`DocumentData` in
`src/types.ts`).  The line-item payload, amounts and signatory names are
opaque to every operation modelled here (diffing looks at `id` and
`status`, ordering at `id`, `date` and `status`) and are omitted. -/
structure DocumentData where
  id : String
  department : String
  date : String
  status : String
deriving DecidableEq, Repr

/-- The user-visible side channels fired by one invocation of
`loadData` / `checkForNewRecords`.  `sounds` counts calls of
`playNotificationSound`; `desktopNew` counts desktop notifications
summarizing newly arrived records; `desktopStatus` counts per-record
status-change desktop notifications; `toastsNew` / `toastsStatus`
likewise for in-app toasts; `fetched` records whether the invocation
actually issued a fetch. -/
structure Effects where
  sounds : Nat
  desktopNew : Nat
  desktopStatus : Nat
  toastsNew : Nat
  toastsStatus : Nat
  toastUpToDate : Bool
  toastError : Bool
  fetched : Bool
deriving DecidableEq, Repr

/-- The invocation fired no side channel and issued no fetch. -/
def noEffects : Effects :=
  { sounds := 0, desktopNew := 0, desktopStatus := 0, toastsNew := 0,
    toastsStatus := 0, toastUpToDate := false, toastError := false,
    fetched := false }

/-- The `App` component's state relevant to synchronization:
`documents` is the current snapshot, `isSyncing` the in-flight guard
(`isSyncingRef`), `lastSync` the last-sync timestamp, `processedDocIds`
and `newDocIds` the two persisted tag sets. -/
structure AppState where
  documents : List DocumentData
  selectedDocId : Option String
  isLoading : Bool
  isSyncing : Bool
  error : Option String
  lastSync : Nat
  processedDocIds : List String
  newDocIds : List String
deriving DecidableEq, Repr

/-- JS `Set.add` on a set represented as its insertion-ordered element
list: appends the element when absent, otherwise leaves the set
unchanged. -/
def setAdd (s : List String) (x : String) : List String :=
  if x ∈ s then s else s ++ [x]

/-- `prevDocsMap.get(docId)` for the JS `Map` built from
`currentDocs.map(d => [d.id, d])`: with duplicate keys the later entry
wins, so this returns the last record of `prev` carrying `docId`. -/
def prevMapGet (prev : List DocumentData) (docId : String) : Option DocumentData :=
  prev.reverse.find? (fun d => d.id == docId)

/-- `newDocs.filter(d => !prevDocsMap.has(d.id))` — the records of the
next snapshot whose identifier is absent from the previous one. -/
def diffNewItems (prev next : List DocumentData) : List DocumentData :=
  next.filter (fun d => !(prevMapGet prev d.id).isSome)

/-- `newDocs.filter(d => { const prev = prevDocsMap.get(d.id); return
prev && prev.status !== d.status; })` — the records present in both
snapshots whose status differs, as their next (post-change) values. -/
def diffStatusChanges (prev next : List DocumentData) : List DocumentData :=
  next.filter (fun d =>
    match prevMapGet prev d.id with
    | some p => p.status != d.status
    | none => false)

/-- One invocation of `checkForNewRecords(isSilent)` from `src/App.tsx`.
`fetchResult` is the outcome of the awaited `fetchDatabaseRecords()`
call (`none` = rejected), `now` the wall clock read after a successful
fetch, `permissionGranted` whether `Notification.permission` is
`granted`.  Returns the state after the invocation completes (the
`finally` block has cleared the guard) together with the side channels
that fired. -/
def checkForNewRecords (st : AppState) (isSilent : Bool)
    (fetchResult : Option (List DocumentData)) (now : Nat)
    (permissionGranted : Bool) : AppState × Effects :=
  if st.isSyncing then (st, noEffects)
  else
    match fetchResult with
    | none =>
        ({ st with isSyncing := false },
         { noEffects with fetched := true, toastError := !isSilent })
    | some newDocs =>
        let currentDocs := st.documents
        let newItems := diffNewItems currentDocs newDocs
        let statusChanges := diffStatusChanges currentDocs newDocs
        let notify := !newItems.isEmpty || !statusChanges.isEmpty
        ({ st with
            documents := newDocs,
            lastSync := now,
            isSyncing := false,
            newDocIds := newItems.foldl (fun s d => setAdd s d.id) st.newDocIds },
         { noEffects with
            fetched := true,
            sounds := if notify then 1 else 0,
            desktopNew :=
              if permissionGranted && !newItems.isEmpty then 1 else 0,
            desktopStatus :=
              if notify && permissionGranted then statusChanges.length else 0,
            toastsNew := if !newItems.isEmpty then 1 else 0,
            toastsStatus := if notify then statusChanges.length else 0,
            toastUpToDate := !notify && !isSilent })

/-- One invocation of `loadData()` from `src/App.tsx` (the initial
load): replaces the snapshot and timestamp on success, selects the
first record when nothing is selected, sets an error message on an
empty result or a failed fetch.  It runs no diff and fires no
notification of any kind. -/
def loadData (st : AppState) (fetchResult : Option (List DocumentData))
    (now : Nat) : AppState × Effects :=
  match fetchResult with
  | none =>
      ({ st with
          isLoading := false,
          error := some "Unable to connect to the database." },
       { noEffects with fetched := true })
  | some docs =>
      ({ st with
          isLoading := false,
          documents := docs,
          lastSync := now,
          selectedDocId :=
            if !docs.isEmpty && st.selectedDocId.isNone then
              (docs.head?).map (fun d => d.id)
            else st.selectedDocId,
          error :=
            if docs.isEmpty then some "No records found in the database."
            else none },
       { noEffects with fetched := true })

/-- Steps 1 and 2 of `updateStatusToSigning(id)`: set the matching
record's status to `For signing` in the local snapshot and merge `id`
into the processed set. -/
def updateStatusToSigning (st : AppState) (id : String) : AppState :=
  { st with
      documents := st.documents.map (fun d =>
        if d.id = id then { d with status := "For signing" } else d),
      processedDocIds := setAdd st.processedDocIds id }

/-- `updateRequisitionStatus` from the database service module: the
remote UPDATE may fail (`dbResult = Except.error _`), but the failure is
caught, logged and swallowed, so the call itself always resolves. -/
def updateRequisitionStatus (dbResult : Except String Unit) : Except String Unit :=
  match dbResult with
  | Except.ok _ => Except.ok ()
  | Except.error _ => Except.ok ()

/-- The full `updateStatusToSigning(id)` workflow including the awaited
remote call, whose raw outcome is `dbResult`: local commit first, then
the remote mutation; a raised error from the remote step would
propagate, but `updateRequisitionStatus` never raises one. -/
def updateStatusToSigningRun (st : AppState) (id : String)
    (dbResult : Except String Unit) : Except String AppState :=
  let st1 := updateStatusToSigning st id
  match updateRequisitionStatus dbResult with
  | Except.ok _ => Except.ok st1
  | Except.error e => Except.error e

/-- `isDocProcessed(doc)`: a record counts as processed when its
identifier is in the processed set or its status is `For signing`. -/
def isDocProcessed (processedDocIds : List String) (doc : DocumentData) : Bool :=
  processedDocIds.contains doc.id || doc.status == "For signing"


/-- The behavior of `a.localeCompare(b)` that the program may rely on.
`localeCompare` applies the environment's locale collation, which
ECMAScript leaves locale- and implementation-defined: it need not agree
with codepoint order (the default locale orders a lower-case letter
before a different upper-case one) and it may return `0` on distinct
strings (canonically equivalent identifiers are required to compare
equal).  The only contract is that of a consistent comparison function,
which is what `Array.prototype.sort` needs; the development therefore
treats the collation as a parameter carrying exactly that contract. -/
structure Collation where
  cmp : String → String → Int
  le_total : ∀ a b, cmp a b ≤ 0 ∨ cmp b a ≤ 0
  le_trans : ∀ a b c, cmp a b ≤ 0 → cmp b c ≤ 0 → cmp a c ≤ 0

/-- Codepoint-lexicographic strict comparison of character lists,
written to evaluate by kernel reduction. -/
def lexLt : List Char → List Char → Bool
  | [], [] => false
  | [], _ :: _ => true
  | _ :: _, [] => false
  | a :: as, b :: bs =>
      if a.toNat < b.toNat then true
      else if b.toNat < a.toNat then false
      else lexLt as bs

/-- Codepoint-lexicographic strict comparison of strings. -/
def strLt (a b : String) : Bool := lexLt a.data b.data

/-- Characters with equal codepoints are equal. -/
theorem char_toNat_inj {a b : Char} (h : a.toNat = b.toNat) : a = b :=
  Char.eq_of_val_eq (UInt32.eq_of_toBitVec_eq (BitVec.eq_of_toNat_eq h))

/-- `lexLt` never holds in both orientations. -/
theorem lexLt_asymm : ∀ {xs ys : List Char},
    lexLt xs ys = true → lexLt ys xs = false := by
  intro xs
  induction xs with
  | nil =>
      intro ys h
      cases ys with
      | nil => simp [lexLt] at h
      | cons b bs => rfl
  | cons a as ih =>
      intro ys h
      cases ys with
      | nil => simp [lexLt] at h
      | cons b bs =>
          unfold lexLt at h ⊢
          by_cases h1 : a.toNat < b.toNat
          · have h2 : ¬b.toNat < a.toNat := by omega
            simp [h1, h2]
          · by_cases h2 : b.toNat < a.toNat
            · simp [h1, h2] at h
            · simp [h1, h2] at h ⊢
              exact ih h

/-- Lists that `lexLt` rejects in both orientations are equal. -/
theorem lexLt_eq_of_not : ∀ {xs ys : List Char},
    lexLt xs ys = false → lexLt ys xs = false → xs = ys := by
  intro xs
  induction xs with
  | nil =>
      intro ys h1 h2
      cases ys with
      | nil => rfl
      | cons b bs => simp [lexLt] at h1
  | cons a as ih =>
      intro ys h1 h2
      cases ys with
      | nil => simp [lexLt] at h2
      | cons b bs =>
          unfold lexLt at h1 h2
          by_cases hab : a.toNat < b.toNat
          · simp [hab] at h1
          · by_cases hba : b.toNat < a.toNat
            · simp [hba] at h2
            · have hchar : a = b := char_toNat_inj (by omega)
              simp [hab, hba] at h1 h2
              rw [hchar, ih h1 h2]

/-- `lexLt` is transitive. -/
theorem lexLt_trans : ∀ {xs ys zs : List Char},
    lexLt xs ys = true → lexLt ys zs = true → lexLt xs zs = true := by
  intro xs
  induction xs with
  | nil =>
      intro ys zs h1 h2
      cases ys with
      | nil => simp [lexLt] at h1
      | cons b bs =>
          cases zs with
          | nil => simp [lexLt] at h2
          | cons c cs => rfl
  | cons a as ih =>
      intro ys zs h1 h2
      cases ys with
      | nil => simp [lexLt] at h1
      | cons b bs =>
          cases zs with
          | nil => simp [lexLt] at h2
          | cons c cs =>
              unfold lexLt at h1 h2 ⊢
              by_cases hab : a.toNat < b.toNat
              · by_cases hbc : b.toNat < c.toNat
                · simp [show a.toNat < c.toNat from by omega]
                · by_cases hcb : c.toNat < b.toNat
                  · simp [hbc, hcb] at h2
                  · simp [show a.toNat < c.toNat from by omega]
              · by_cases hba : b.toNat < a.toNat
                · simp [hab, hba] at h1
                · by_cases hbc : b.toNat < c.toNat
                  · simp [show a.toNat < c.toNat from by omega]
                  · by_cases hcb : c.toNat < b.toNat
                    · simp [hbc, hcb] at h2
                    · have hac : ¬a.toNat < c.toNat := by omega
                      have hca : ¬c.toNat < a.toNat := by omega
                      simp [hab, hba] at h1
                      simp [hbc, hcb] at h2
                      simp [hac, hca]
                      exact ih h1 h2

/-- `lexLt` is irreflexive. -/
theorem lexLt_irrefl : ∀ xs : List Char, lexLt xs xs = false := by
  intro xs
  induction xs with
  | nil => rfl
  | cons a as ih =>
      unfold lexLt
      simp [lt_self_iff_false]
      exact ih

/-- `strLt` never holds in both orientations. -/
theorem strLt_asymm {a b : String} (h : strLt a b = true) :
    strLt b a = false :=
  lexLt_asymm h

/-- Strings that `strLt` rejects in both orientations are equal. -/
theorem strLt_eq_of_not {a b : String} (h1 : strLt a b = false)
    (h2 : strLt b a = false) : a = b := by
  cases a with
  | mk da =>
      cases b with
      | mk db =>
          have : da = db := lexLt_eq_of_not h1 h2
          rw [this]

/-- `strLt` is transitive. -/
theorem strLt_trans {a b c : String} (h1 : strLt a b = true)
    (h2 : strLt b c = true) : strLt a c = true :=
  lexLt_trans h1 h2

/-- `strLt` is irreflexive. -/
theorem strLt_irrefl (a : String) : strLt a a = false :=
  lexLt_irrefl a.data

/-- Key-then-codepoint string comparison: compares the key images
first and breaks their ties by codepoint order.  A family of concrete
consistent comparators used to instantiate `Collation`. -/
def keyedCmp (key : String → String) (a b : String) : Int :=
  if strLt (key a) (key b) then -1
  else if strLt (key b) (key a) then 1
  else if strLt a b then -1
  else if strLt b a then 1
  else 0

/-- `keyedCmp` is nonpositive exactly on the key-lexicographic order. -/
theorem keyedCmp_le_iff (key : String → String) (a b : String) :
    keyedCmp key a b ≤ 0 ↔
      (strLt (key a) (key b) = true ∨
       (strLt (key b) (key a) = false ∧ strLt b a = false)) := by
  unfold keyedCmp
  by_cases h1 : strLt (key a) (key b) = true
  · rw [if_pos h1]
    exact iff_of_true (by norm_num) (Or.inl h1)
  · rw [if_neg h1]
    by_cases h2 : strLt (key b) (key a) = true
    · rw [if_pos h2]
      refine iff_of_false (by norm_num) ?_
      rintro (h | ⟨hf, -⟩)
      · exact h1 h
      · rw [h2] at hf
        cases hf
    · rw [if_neg h2]
      have h2f : strLt (key b) (key a) = false := Bool.eq_false_iff.mpr h2
      by_cases h3 : strLt a b = true
      · rw [if_pos h3]
        exact iff_of_true (by norm_num) (Or.inr ⟨h2f, strLt_asymm h3⟩)
      · rw [if_neg h3]
        by_cases h4 : strLt b a = true
        · rw [if_pos h4]
          refine iff_of_false (by norm_num) ?_
          rintro (h | ⟨-, hf⟩)
          · exact h1 h
          · rw [h4] at hf
            cases hf
        · rw [if_neg h4]
          exact iff_of_true (le_refl 0)
            (Or.inr ⟨h2f, Bool.eq_false_iff.mpr h4⟩)

/-- `keyedCmp` is total in the sense the collation contract needs. -/
theorem keyedCmp_le_total (key : String → String) (a b : String) :
    keyedCmp key a b ≤ 0 ∨ keyedCmp key b a ≤ 0 := by
  rw [keyedCmp_le_iff, keyedCmp_le_iff]
  by_cases h1 : strLt (key a) (key b) = true
  · exact Or.inl (Or.inl h1)
  · by_cases h2 : strLt (key b) (key a) = true
    · exact Or.inr (Or.inl h2)
    · by_cases h3 : strLt b a = true
      · exact Or.inr (Or.inr ⟨Bool.eq_false_iff.mpr h1, strLt_asymm h3⟩)
      · exact Or.inl (Or.inr ⟨Bool.eq_false_iff.mpr h2,
          Bool.eq_false_iff.mpr h3⟩)

/-- `keyedCmp` is transitive in the sense the collation contract
needs. -/
theorem keyedCmp_le_trans (key : String → String) (a b c : String)
    (hab : keyedCmp key a b ≤ 0) (hbc : keyedCmp key b c ≤ 0) :
    keyedCmp key a c ≤ 0 := by
  rw [keyedCmp_le_iff] at hab hbc ⊢
  rcases hab with h1 | ⟨h1, h1b⟩ <;> rcases hbc with h2 | ⟨h2, h2b⟩
  · exact Or.inl (strLt_trans h1 h2)
  · by_cases hbc2 : strLt (key b) (key c) = true
    · exact Or.inl (strLt_trans h1 hbc2)
    · have heq : key b = key c :=
        strLt_eq_of_not (Bool.eq_false_iff.mpr hbc2) h2
      exact Or.inl (by rw [← heq]; exact h1)
  · by_cases hab2 : strLt (key a) (key b) = true
    · exact Or.inl (strLt_trans hab2 h2)
    · have heq : key a = key b :=
        strLt_eq_of_not (Bool.eq_false_iff.mpr hab2) h1
      exact Or.inl (by rw [heq]; exact h2)
  · by_cases hab2 : strLt (key a) (key b) = true
    · by_cases hbc2 : strLt (key b) (key c) = true
      · exact Or.inl (strLt_trans hab2 hbc2)
      · have heq : key b = key c :=
          strLt_eq_of_not (Bool.eq_false_iff.mpr hbc2) h2
        exact Or.inl (by rw [← heq]; exact hab2)
    · have heqab : key a = key b :=
        strLt_eq_of_not (Bool.eq_false_iff.mpr hab2) h1
      by_cases hbc2 : strLt (key b) (key c) = true
      · exact Or.inl (by rw [heqab]; exact hbc2)
      · have heqbc : key b = key c :=
          strLt_eq_of_not (Bool.eq_false_iff.mpr hbc2) h2
        refine Or.inr ⟨?_, ?_⟩
        · rw [← heqbc, ← heqab]
          exact strLt_irrefl _
        · by_cases hca : strLt c a = true
          · by_cases hcb2 : strLt b c = true
            · have hba := strLt_trans hcb2 hca
              rw [hba] at h1b
              cases h1b
            · have heq2 : b = c :=
                strLt_eq_of_not (Bool.eq_false_iff.mpr hcb2) h2b
              rw [← heq2] at hca
              rw [hca] at h1b
              cases h1b
          · exact Bool.eq_false_iff.mpr hca

/-- Codepoint collation: one admissible `localeCompare` behavior,
agreeing with typical default-locale collation on identifiers drawn
from ASCII digits or letters of a single case, such as those of the
worked examples. -/
def codepointCollation : Collation :=
  { cmp := keyedCmp (fun s => s),
    le_total := keyedCmp_le_total (fun s => s),
    le_trans := keyedCmp_le_trans (fun s => s) }

/-- ASCII case folding (`toLower`), written over the character list so
that it evaluates by kernel reduction. -/
def foldCase (s : String) : String :=
  String.mk (s.data.map Char.toLower)

/-- Case-insensitive-first collation: letter differences outrank case
differences, so `a` sorts before `B` — the characteristic primary
strength of default-locale (ICU root) collation on ASCII identifiers,
and the opposite of codepoint order on that pair.  Another admissible
`localeCompare` behavior. -/
def caseFoldCollation : Collation :=
  { cmp := keyedCmp foldCase,
    le_total := keyedCmp_le_total foldCase,
    le_trans := keyedCmp_le_trans foldCase }

/-- Whether `y` is a Gregorian leap year. -/
def isLeapYear (y : Int) : Bool :=
  (y % 4 == 0 && y % 100 != 0) || y % 400 == 0

/-- The number of days of month `m` of year `y`. -/
def daysInMonth (y m : Int) : Int :=
  if m == 2 then (if isLeapYear y then 29 else 28)
  else if m == 4 || m == 6 || m == 9 || m == 11 then 30
  else 31

/-- `new Date(s).getTime()` for date strings in the `YYYY-MM-DD` format
the records use: returns a value strictly monotone in calendar order
(distinct well-formed date strings get distinct values).  `none` models
an invalid date, whose `getTime()` is `NaN`; ECMAScript's date-time
string format rejects out-of-range components, including day numbers
past the month's end such as `2024-02-31` or February 29 of a non-leap
year, so those parse to `none` as well. -/
def parseDateMs (s : String) : Option Int :=
  match s.toList with
  | [y1, y2, y3, y4, '-', m1, m2, '-', d1, d2] =>
      if (y1.isDigit && y2.isDigit && y3.isDigit && y4.isDigit &&
          m1.isDigit && m2.isDigit && d1.isDigit && d2.isDigit) then
        let y := ((y1.toNat - 48) * 1000 + (y2.toNat - 48) * 100 +
                  (y3.toNat - 48) * 10 + (y4.toNat - 48) : Int)
        let m := ((m1.toNat - 48) * 10 + (m2.toNat - 48) : Int)
        let d := ((d1.toNat - 48) * 10 + (d2.toNat - 48) : Int)
        if 1 ≤ m && m ≤ 12 && 1 ≤ d && d ≤ daysInMonth y m then
          some (y * 10000 + m * 100 + d)
        else none
      else none
  | _ => none

/-- The date-then-identifier tail of the sidebar comparator: date
difference when the parsed dates differ, otherwise `localeCompare`
(the collation) on identifiers.  When either date fails to parse, the
JS comparator's arithmetic yields `NaN`, which ECMAScript `SortCompare`
treats as `+0`: such pairs compare equal, modelled by the catch-all `0`
branch. -/
def dateCompare (coll : Collation) (a b : DocumentData) : Int :=
  match parseDateMs a.date, parseDateMs b.date with
  | some da, some db =>
      if da ≠ db then da - db else coll.cmp a.id b.id
  | _, _ => 0

/-- The comparator passed to `sort` in `sidebarDocuments`: processed
records sink, then date ascending, then `localeCompare` — the
environment's collation `coll` — on identifiers. -/
def compareDocs (coll : Collation) (processedDocIds : List String)
    (a b : DocumentData) : Int :=
  if isDocProcessed processedDocIds a && !(isDocProcessed processedDocIds b)
    then 1
  else if !(isDocProcessed processedDocIds a) && isDocProcessed processedDocIds b
    then -1
  else dateCompare coll a b

/-- `sidebarDocuments`: the snapshot sorted by `compareDocs` with a
stable sort, as ECMAScript `Array.prototype.sort` guarantees. -/
def sidebarDocuments (coll : Collation) (documents : List DocumentData)
    (processedDocIds : List String) : List DocumentData :=
  List.insertionSort (fun a b => compareDocs coll processedDocIds a b ≤ 0)
    documents

/-- Database row mapping: the raw columns of a `requisitions` row that
the mapped fields modelled here draw from (`none` models SQL NULL /
a missing column). -/
structure DbRow where
  id : String
  department : Option String
  date : Option String
  status : Option String
deriving DecidableEq, Repr

/-- The status strings of the `DocumentData.status` union type. -/
def allowedStatuses : List String :=
  ["Approved", "Pending", "Processing", "For signing"]

/-- The `val ? String(val) : ""` helper of the row mapping. -/
def getStr : Option String → String
  | some s => s
  | none => ""

/-- The row mapping's status normalization: keep the raw value when it
is one of the four allowed statuses, otherwise (including NULL) default
to `Pending`. -/
def mapRowStatus (rawStatus : Option String) : String :=
  match rawStatus with
  | some s => if s ∈ allowedStatuses then s else "Pending"
  | none => "Pending"

/-- Mapping of one database row to a `DocumentData` (the loop body of
`fetchDatabaseRecords`), restricted to the fields carried here. -/
def mapRow (row : DbRow) : DocumentData :=
  { id := row.id,
    department := getStr row.department,
    date := getStr row.date,
    status := mapRowStatus row.status }

/-- `fetchDatabaseRecords` with both of its paths.  On a successful
primary query (`primaryRows = some rows`) every returned row goes
through the row mapping.  When the primary query fails, the catch falls
back to the mock service and returns its parsed JSON (`mockResult`)
as-is — the `as DocumentData` array cast performs no runtime status
validation, so those records are whatever the external service
produced; when the fallback fails too, the original error propagates
(`none`). -/
def fetchDatabaseRecords (primaryRows : Option (List DbRow))
    (mockResult : Option (List DocumentData)) : Option (List DocumentData) :=
  match primaryRows with
  | some rows => some (rows.map mapRow)
  | none => mockResult

/-- One scheduled invocation in a run of the app: the initial
`loadData` call or a (timer- or user-triggered) `checkForNewRecords`
poll, each carrying the outcome of its fetch. -/
inductive SyncEvent where
  | load (result : Option (List DocumentData)) (now : Nat)
  | poll (silent : Bool) (result : Option (List DocumentData)) (now : Nat)
      (permissionGranted : Bool)
deriving DecidableEq, Repr

/-- The fetch outcome an event carries. -/
def eventResult : SyncEvent → Option (List DocumentData)
  | SyncEvent.load r _ => r
  | SyncEvent.poll _ r _ _ => r

/-- Execute one event against the current state. -/
def stepEvent (st : AppState) : SyncEvent → AppState × Effects
  | SyncEvent.load r now => loadData st r now
  | SyncEvent.poll silent r now perm => checkForNewRecords st silent r now perm

/-- The state after executing a list of events in order. -/
def runState (st : AppState) (evs : List SyncEvent) : AppState :=
  evs.foldl (fun s e => (stepEvent s e).1) st

/-- The app's startup state: empty snapshot, guard clear, empty
persisted tag sets. -/
def startupState : AppState :=
  { documents := [], selectedDocId := none, isLoading := true,
    isSyncing := false, error := none, lastSync := 0,
    processedDocIds := [], newDocIds := [] }

/-- No arrival/status side channel fired: no sound, no desktop
notification and no record-related toast. -/
def noArrivalEffects (eff : Effects) : Prop :=
  eff.sounds = 0 ∧ eff.desktopNew = 0 ∧ eff.desktopStatus = 0 ∧
  eff.toastsNew = 0 ∧ eff.toastsStatus = 0

/-- The cold-start suppression property over runs from the startup
state: whenever every event before `e` had a failed fetch and `e` is
the first event whose fetch succeeds, executing `e` fires no arrival
notification and adds nothing to the unseen set. -/
def ColdStartSuppression : Prop :=
  ∀ (pre : List SyncEvent) (e : SyncEvent),
    (∀ e' ∈ pre, eventResult e' = none) →
    (eventResult e).isSome = true →
    (noArrivalEffects (stepEvent (runState startupState pre) e).2 ∧
     (stepEvent (runState startupState pre) e).1.newDocIds =
       (runState startupState pre).newDocIds)

/-- A fixed record used in concrete runs. -/
def sampleDoc : DocumentData :=
  { id := "R1", department := "Kitchen", date := "2024-01-05",
    status := "Pending" }

/-- A state whose in-flight guard is set (a poll's fetch is pending). -/
def busyState : AppState :=
  { documents := [sampleDoc], selectedDocId := some "R1", isLoading := false,
    isSyncing := true, error := none, lastSync := 3,
    processedDocIds := [], newDocIds := [] }

/-- A state whose in-flight guard is clear. -/
def idleState : AppState :=
  { documents := [sampleDoc], selectedDocId := some "R1", isLoading := false,
    isSyncing := false, error := none, lastSync := 3,
    processedDocIds := [], newDocIds := [] }

/-- Claim C3: while the in-flight guard is set, a second invocation of
the poll is a no-op — it issues no fetch and returns the state
unchanged (snapshot, timestamp, processed set and unseen set
included). -/
theorem c3_guard_noop (st : AppState) (isSilent : Bool)
    (fetchResult : Option (List DocumentData)) (now : Nat)
    (permissionGranted : Bool) (h : st.isSyncing = true) :
    checkForNewRecords st isSilent fetchResult now permissionGranted =
      (st, noEffects) := by
  simp [checkForNewRecords, h]

/-- Witness for C3 at a concrete guarded state. -/
theorem c3_guard_noop_witness :
    busyState.isSyncing = true ∧
    checkForNewRecords busyState false (some []) 9 true =
      (busyState, noEffects) :=
  ⟨by decide, c3_guard_noop busyState false (some []) 9 true (by decide)⟩

/-- Claim C4: a poll whose fetch fails leaves the snapshot and the
last-sync timestamp unchanged, ends with the in-flight guard clear, and
raises a connectivity-error toast exactly when the poll was not
silent. -/
theorem c4_fetch_failure (st : AppState) (isSilent : Bool) (now : Nat)
    (permissionGranted : Bool) (h : st.isSyncing = false) :
    (checkForNewRecords st isSilent none now permissionGranted).1.documents =
        st.documents ∧
    (checkForNewRecords st isSilent none now permissionGranted).1.lastSync =
        st.lastSync ∧
    (checkForNewRecords st isSilent none now permissionGranted).1.isSyncing =
        false ∧
    (checkForNewRecords st isSilent none now permissionGranted).2.toastError =
        !isSilent := by
  simp [checkForNewRecords, h]

/-- Witness for C4 at a concrete idle state and a non-silent poll. -/
theorem c4_fetch_failure_witness :
    idleState.isSyncing = false ∧
    ((checkForNewRecords idleState false none 11 true).1.documents =
        idleState.documents ∧
     (checkForNewRecords idleState false none 11 true).1.lastSync =
        idleState.lastSync ∧
     (checkForNewRecords idleState false none 11 true).1.isSyncing = false ∧
     (checkForNewRecords idleState false none 11 true).2.toastError = true) :=
  ⟨by decide, c4_fetch_failure idleState false 11 true (by decide)⟩

/-- Claim C6: in any dispatch of a successful poll's diff result the
notification sound plays exactly once when something arrived or changed
status — never once per item — and not at all otherwise. -/
theorem c6_sound_once (st : AppState) (isSilent : Bool)
    (newDocs : List DocumentData) (now : Nat) (permissionGranted : Bool)
    (h : st.isSyncing = false) :
    (checkForNewRecords st isSilent (some newDocs) now permissionGranted).2.sounds =
      if diffNewItems st.documents newDocs = [] ∧
         diffStatusChanges st.documents newDocs = [] then 0 else 1 := by
  simp only [checkForNewRecords, h, Bool.false_eq_true, if_false]
  by_cases hn : diffNewItems st.documents newDocs = [] <;>
    by_cases hs : diffStatusChanges st.documents newDocs = [] <;>
      simp [hn, hs, List.isEmpty_iff]

/-- Witness for C6: a poll that brings two arrivals and one status
change still plays the sound exactly once. -/
theorem c6_sound_once_witness :
    (checkForNewRecords idleState true
        (some [{ id := "R1", department := "Kitchen", date := "2024-01-05",
                 status := "Approved" },
               { id := "R2", department := "Bar", date := "2024-01-06",
                 status := "Pending" },
               { id := "R3", department := "Spa", date := "2024-01-07",
                 status := "Pending" }]) 40 true).2.sounds = 1 := by
  rw [c6_sound_once idleState true _ 40 true (by decide)]
  decide

/-- An element just added by `setAdd` is a member of the result. -/
theorem mem_setAdd_self (s : List String) (x : String) : x ∈ setAdd s x := by
  unfold setAdd
  split
  · assumption
  · simp

/-- `setAdd` never makes the list lose duplicate-freedom. -/
theorem nodup_setAdd {s : List String} (h : s.Nodup) (x : String) :
    (setAdd s x).Nodup := by
  unfold setAdd
  split
  · exact h
  · simpa [List.nodup_append, h]

/-- Re-adding a present element changes nothing. -/
theorem setAdd_mem {s : List String} {x : String} (h : x ∈ s) :
    setAdd s x = s := by
  simp [setAdd, h]

/-- Claim C7: the status transition workflow is idempotent — for an
identifier present in the snapshot, running it twice equals running it
once, the processed set holds the identifier exactly once, and every
record with that identifier (there is one) is stably at `For signing`. -/
theorem c7_idempotent (st : AppState) (id : String)
    (hnd : st.processedDocIds.Nodup)
    (hmem : id ∈ st.documents.map (fun d => d.id)) :
    updateStatusToSigning (updateStatusToSigning st id) id =
        updateStatusToSigning st id ∧
    (updateStatusToSigning st id).processedDocIds.count id = 1 ∧
    (∃ d ∈ (updateStatusToSigning st id).documents, d.id = id) ∧
    (∀ d ∈ (updateStatusToSigning st id).documents,
        d.id = id → d.status = "For signing") := by
  refine ⟨?_, ?_, ?_, ?_⟩
  · unfold updateStatusToSigning
    simp only [AppState.mk.injEq, and_true, true_and]
    constructor
    · rw [List.map_map]
      apply List.map_congr_left
      intro d _
      by_cases h : d.id = id <;> simp [h, Function.comp]
    · exact setAdd_mem (mem_setAdd_self _ _)
  · exact List.count_eq_one_of_mem (nodup_setAdd hnd id)
      (mem_setAdd_self _ _)
  · obtain ⟨d, hd, hid⟩ := List.mem_map.mp hmem
    refine ⟨{ d with status := "For signing" }, ?_, hid⟩
    unfold updateStatusToSigning
    simp only []
    exact List.mem_map.mpr ⟨d, hd, by simp [hid]⟩
  · intro d hd hid
    unfold updateStatusToSigning at hd
    simp only [List.mem_map] at hd
    obtain ⟨d0, _, hmap⟩ := hd
    by_cases h0 : d0.id = id
    · rw [← hmap]
      simp [h0]
    · rw [← hmap] at hid ⊢
      simp [h0] at hid

/-- Witness for C7 at a concrete one-record state. -/
theorem c7_idempotent_witness :
    updateStatusToSigning (updateStatusToSigning idleState "R1") "R1" =
        updateStatusToSigning idleState "R1" ∧
    (updateStatusToSigning idleState "R1").processedDocIds.count "R1" = 1 ∧
    (∃ d ∈ (updateStatusToSigning idleState "R1").documents, d.id = "R1") ∧
    (∀ d ∈ (updateStatusToSigning idleState "R1").documents,
        d.id = "R1" → d.status = "For signing") :=
  c7_idempotent idleState "R1" (by decide) (by decide)

/-- Claim C9: a failed remote status mutation is swallowed by the
workflow — the run resolves normally with the locally committed state,
in which the identifier is in the processed set and every record with
that identifier carries status `For signing`. -/
theorem c9_no_rollback (st : AppState) (id : String) (msg : String) :
    updateStatusToSigningRun st id (Except.error msg) =
        Except.ok (updateStatusToSigning st id) ∧
    id ∈ (updateStatusToSigning st id).processedDocIds ∧
    (∀ d ∈ (updateStatusToSigning st id).documents,
        d.id = id → d.status = "For signing") := by
  refine ⟨rfl, mem_setAdd_self _ _, ?_⟩
  intro d hd hid
  unfold updateStatusToSigning at hd
  simp only [List.mem_map] at hd
  obtain ⟨d0, _, hmap⟩ := hd
  by_cases h0 : d0.id = id
  · rw [← hmap]
    simp [h0]
  · rw [← hmap] at hid
    simp [h0] at hid

/-- Witness for C9 at a concrete state and failure message. -/
theorem c9_no_rollback_witness :
    updateStatusToSigningRun idleState "R1" (Except.error "network down") =
        Except.ok (updateStatusToSigning idleState "R1") ∧
    "R1" ∈ (updateStatusToSigning idleState "R1").processedDocIds ∧
    (∀ d ∈ (updateStatusToSigning idleState "R1").documents,
        d.id = "R1" → d.status = "For signing") :=
  c9_no_rollback idleState "R1" "network down"

/-- A record exactly as the unvalidated fallback path can return it:
its status string lies outside the enum. -/
def mockBadDoc : DocumentData :=
  { id := "9", department := "Spa", date := "2026-02-18", status := "Rejected" }

/-- Counterexample to claim C10 as stated: when the primary query fails
and the mock fallback answers, `fetchDatabaseRecords` returns the
fallback's parsed records with no status validation, so a record whose
raw status lies outside the enum comes back as-is instead of being
defaulted to `Pending`. -/
theorem c10_counterexample :
    fetchDatabaseRecords none (some [mockBadDoc]) = some [mockBadDoc] ∧
    mockBadDoc.status ∉ allowedStatuses ∧ mockBadDoc.status ≠ "Pending" := by
  decide

/-- Claim C10 amended: every record returned by the primary query path
of `fetchDatabaseRecords` has a status drawn from the four-value enum,
and a row whose raw status is NULL or outside the enum maps to
`Pending`; the fallback path returns the mock service's records without
this normalization. -/
theorem c10_status_enum (rows : List DbRow)
    (mockResult : Option (List DocumentData))
    (docsOut : List DocumentData)
    (hout : fetchDatabaseRecords (some rows) mockResult = some docsOut) :
    (∀ doc ∈ docsOut, doc.status ∈ allowedStatuses) ∧
    (∀ row ∈ rows,
      (row.status = none ∨ (∀ s, row.status = some s → s ∉ allowedStatuses)) →
      (mapRow row).status = "Pending") := by
  have hdocs : docsOut = rows.map mapRow := by
    unfold fetchDatabaseRecords at hout
    exact (Option.some_inj.mp hout).symm
  subst hdocs
  constructor
  · intro doc hdoc
    obtain ⟨row, _, hmap⟩ := List.mem_map.mp hdoc
    rw [← hmap]
    show mapRowStatus row.status ∈ allowedStatuses
    cases hstat : row.status with
    | none => decide
    | some s =>
        show (if s ∈ allowedStatuses then s else "Pending") ∈ allowedStatuses
        by_cases h : s ∈ allowedStatuses
        · rw [if_pos h]
          exact h
        · rw [if_neg h]
          decide
  · intro row _ hbad
    show mapRowStatus row.status = "Pending"
    cases hstat : row.status with
    | none => rfl
    | some s =>
        rcases hbad with h | h
        · rw [hstat] at h
          exact absurd h (by simp)
        · have hs : s ∉ allowedStatuses := h s hstat
          show (if s ∈ allowedStatuses then s else "Pending") = "Pending"
          rw [if_neg hs]

/-- A database row carrying a status value outside the enum. -/
def badRow : DbRow :=
  { id := "7", department := none, date := none, status := some "Garbage" }

/-- Witness for C10: on the primary path, a row carrying an
out-of-enum status maps to `Pending`. -/
theorem c10_status_enum_witness : (mapRow badRow).status = "Pending" := by
  refine (c10_status_enum [badRow] none ([badRow].map mapRow) rfl).2 _
    (by decide) (Or.inr ?_)
  intro s hs
  cases hs
  decide

/-- Map-membership test: `prevDocsMap.has(docId)` holds exactly when
some record of the previous snapshot carries `docId`. -/
theorem prevMapGet_isSome_iff (prev : List DocumentData) (docId : String) :
    (prevMapGet prev docId).isSome = true ↔
      docId ∈ prev.map (fun d => d.id) := by
  unfold prevMapGet
  rw [List.find?_isSome]
  constructor
  · rintro ⟨d, hd, hbeq⟩
    exact List.mem_map.mpr ⟨d, List.mem_reverse.mp hd, by simpa using hbeq⟩
  · rintro h
    obtain ⟨d, hd, hid⟩ := List.mem_map.mp h
    exact ⟨d, List.mem_reverse.mpr hd, by simpa using hid⟩

/-- A successful map lookup returns a record of the previous snapshot
carrying the looked-up identifier. -/
theorem prevMapGet_eq_some (prev : List DocumentData) (docId : String)
    (p : DocumentData) (h : prevMapGet prev docId = some p) :
    p ∈ prev ∧ p.id = docId := by
  unfold prevMapGet at h
  refine ⟨List.mem_reverse.mp (List.mem_of_find?_eq_some h), ?_⟩
  simpa using List.find?_some h

/-- Two records of a snapshot with duplicate-free identifiers that share
an identifier are the same record. -/
theorem nodup_map_id_inj {l : List DocumentData}
    (hnd : (l.map (fun d => d.id)).Nodup) {p q : DocumentData}
    (hp : p ∈ l) (hq : q ∈ l) (h : p.id = q.id) : p = q := by
  induction l with
  | nil => cases hp
  | cons x t ih =>
      simp only [List.map_cons, List.nodup_cons] at hnd
      rcases List.mem_cons.mp hp with hpx | hpt <;>
        rcases List.mem_cons.mp hq with hqx | hqt
      · rw [hpx, hqx]
      · exact absurd (List.mem_map.mpr ⟨q, hqt, by rw [← h, hpx]⟩) hnd.1
      · exact absurd (List.mem_map.mpr ⟨p, hpt, by rw [h, hqx]⟩) hnd.1
      · exact ih hnd.2 hpt hqt

/-- Under duplicate-free identifiers, looking up the identifier of a
member record returns exactly that record. -/
theorem prevMapGet_of_mem {prev : List DocumentData}
    (hnd : (prev.map (fun d => d.id)).Nodup) {p : DocumentData}
    (hp : p ∈ prev) : prevMapGet prev p.id = some p := by
  have hsome : (prevMapGet prev p.id).isSome = true :=
    (prevMapGet_isSome_iff prev p.id).mpr (List.mem_map.mpr ⟨p, hp, rfl⟩)
  obtain ⟨q, hq⟩ := Option.isSome_iff_exists.mp hsome
  obtain ⟨hqmem, hqid⟩ := prevMapGet_eq_some prev p.id q hq
  rw [hq, nodup_map_id_inj hnd hqmem hp hqid]

/-- The previous snapshot of the worked diff example. -/
def diffPrevExample : List DocumentData :=
  [{ id := "1", department := "", date := "", status := "Pending" }]

/-- The next snapshot of the worked diff example. -/
def diffNextExample : List DocumentData :=
  [{ id := "1", department := "", date := "", status := "Approved" },
   { id := "2", department := "", date := "", status := "Pending" }]

/-- Claim C2: under duplicate-free identifiers in the previous snapshot,
the poll's diff yields as arrived exactly the identifiers of the next
snapshot absent from the previous one, and as status changes exactly the
records present in both snapshots whose status differs, at their next
(post-change) value; the worked example evaluates as the spec states. -/
theorem c2_diff (prev next : List DocumentData)
    (hnd : (prev.map (fun d => d.id)).Nodup) :
    (∀ docId, docId ∈ (diffNewItems prev next).map (fun d => d.id) ↔
        (docId ∈ next.map (fun d => d.id) ∧
         docId ∉ prev.map (fun d => d.id))) ∧
    (∀ d, d ∈ diffStatusChanges prev next ↔
        (d ∈ next ∧ ∃ p ∈ prev, p.id = d.id ∧ p.status ≠ d.status)) ∧
    ((diffNewItems diffPrevExample diffNextExample).map (fun d => d.id) =
        ["2"] ∧
     diffStatusChanges diffPrevExample diffNextExample =
        [{ id := "1", department := "", date := "", status := "Approved" }]) := by
  refine ⟨?_, ?_, by decide⟩
  · intro docId
    unfold diffNewItems
    constructor
    · intro h
      obtain ⟨d, hd, hid⟩ := List.mem_map.mp h
      obtain ⟨hdnext, hpred⟩ := List.mem_filter.mp hd
      refine ⟨List.mem_map.mpr ⟨d, hdnext, hid⟩, ?_⟩
      rw [← hid]
      intro hmem
      have := (prevMapGet_isSome_iff prev d.id).mpr hmem
      simp [this] at hpred
    · rintro ⟨hnext, hprev⟩
      obtain ⟨d, hd, hid⟩ := List.mem_map.mp hnext
      refine List.mem_map.mpr ⟨d, List.mem_filter.mpr ⟨hd, ?_⟩, hid⟩
      have hnot : d.id ∉ prev.map (fun d => d.id) := by
        rw [hid]
        exact hprev
      have hfalse : (prevMapGet prev d.id).isSome = false := by
        rw [Bool.eq_false_iff]
        intro hsome
        exact hnot ((prevMapGet_isSome_iff prev d.id).mp hsome)
      simp [hfalse]
  · intro d
    unfold diffStatusChanges
    constructor
    · intro h
      obtain ⟨hdnext, hpred⟩ := List.mem_filter.mp h
      refine ⟨hdnext, ?_⟩
      cases hget : prevMapGet prev d.id with
      | none => rw [hget] at hpred; simp at hpred
      | some p =>
          rw [hget] at hpred
          obtain ⟨hpmem, hpid⟩ := prevMapGet_eq_some prev d.id p hget
          exact ⟨p, hpmem, hpid, by simpa using hpred⟩
    · rintro ⟨hdnext, p, hpmem, hpid, hpstat⟩
      refine List.mem_filter.mpr ⟨hdnext, ?_⟩
      have hget : prevMapGet prev d.id = some p := by
        rw [← hpid]
        exact prevMapGet_of_mem hnd hpmem
      rw [hget]
      simpa using hpstat

/-- Witness for C2: the arrived-identifier characterization instantiated
at the worked example. -/
theorem c2_diff_witness :
    "2" ∈ (diffNewItems diffPrevExample diffNextExample).map (fun d => d.id) ↔
      ("2" ∈ diffNextExample.map (fun d => d.id) ∧
       "2" ∉ diffPrevExample.map (fun d => d.id)) :=
  ((c2_diff diffPrevExample diffNextExample (by decide)).1) "2"


/-- The comparator's date tail is total: one orientation of every pair
is nonpositive, whatever the collation. -/
theorem dateCompare_total (coll : Collation) (a b : DocumentData) :
    dateCompare coll a b ≤ 0 ∨ dateCompare coll b a ≤ 0 := by
  unfold dateCompare
  rcases hpa : parseDateMs a.date with _ | da <;>
    rcases hpb : parseDateMs b.date with _ | db
  · exact Or.inl (le_refl 0)
  · exact Or.inl (le_refl 0)
  · exact Or.inl (le_refl 0)
  · show (if da ≠ db then da - db else coll.cmp a.id b.id) ≤ 0 ∨
      (if db ≠ da then db - da else coll.cmp b.id a.id) ≤ 0
    by_cases hd : da = db
    · rw [hd, if_neg (not_not_intro rfl), if_neg (not_not_intro rfl)]
      exact coll.le_total a.id b.id
    · rw [if_pos hd, if_pos (fun h => hd h.symm)]
      omega

/-- The sidebar comparator is total: one orientation of every pair is
nonpositive, whatever the collation. -/
theorem compareDocs_total (coll : Collation) (P : List String)
    (a b : DocumentData) :
    compareDocs coll P a b ≤ 0 ∨ compareDocs coll P b a ≤ 0 := by
  unfold compareDocs
  cases hap : isDocProcessed P a <;> cases hbp : isDocProcessed P b
  · exact dateCompare_total coll a b
  · exact Or.inl (by norm_num)
  · exact Or.inr (by norm_num)
  · exact dateCompare_total coll a b

/-- The comparator's date tail is nonpositive exactly when the (date,
collated identifier) pair of the left record is lexicographically no
larger, provided both dates parse. -/
theorem dateCompare_le_iff (coll : Collation) (a b : DocumentData)
    (da db : Int) (ha : parseDateMs a.date = some da)
    (hb : parseDateMs b.date = some db) :
    dateCompare coll a b ≤ 0 ↔
      (da < db ∨ (da = db ∧ coll.cmp a.id b.id ≤ 0)) := by
  unfold dateCompare
  rw [ha, hb]
  show (if da ≠ db then da - db else coll.cmp a.id b.id) ≤ 0 ↔ _
  by_cases hd : da = db
  · rw [if_neg (not_not_intro hd)]
    constructor
    · intro h
      exact Or.inr ⟨hd, h⟩
    · rintro (h | ⟨-, h⟩)
      · exact absurd hd (ne_of_lt h)
      · exact h
  · rw [if_pos hd]
    constructor
    · intro h
      exact Or.inl (by omega)
    · rintro (h | ⟨h, -⟩)
      · omega
      · exact absurd h hd

/-- Characterization of the comparator's nonpositive orientation when
both dates parse: the left record must not be the only processed one of
the pair, and within one partition the date and then the collation on
the identifiers decide. -/
theorem compareDocs_le_iff (coll : Collation) (P : List String)
    (a b : DocumentData) (da db : Int) (ha : parseDateMs a.date = some da)
    (hb : parseDateMs b.date = some db) :
    compareDocs coll P a b ≤ 0 ↔
      ((isDocProcessed P a = true → isDocProcessed P b = true) ∧
       (isDocProcessed P a = isDocProcessed P b →
         (da < db ∨ (da = db ∧ coll.cmp a.id b.id ≤ 0)))) := by
  unfold compareDocs
  cases hap : isDocProcessed P a <;> cases hbp : isDocProcessed P b
  · show dateCompare coll a b ≤ 0 ↔ _
    rw [dateCompare_le_iff coll a b da db ha hb]
    simp
  · show (-1 : Int) ≤ 0 ↔ _
    simp
  · show (1 : Int) ≤ 0 ↔ _
    simp
  · show dateCompare coll a b ≤ 0 ↔ _
    rw [dateCompare_le_iff coll a b da db ha hb]
    simp

/-- The comparator is transitive on records whose dates parse. -/
theorem compareDocs_trans (coll : Collation) (P : List String)
    {a b c : DocumentData} {da db dc : Int}
    (ha : parseDateMs a.date = some da) (hb : parseDateMs b.date = some db)
    (hc : parseDateMs c.date = some dc)
    (hab : compareDocs coll P a b ≤ 0) (hbc : compareDocs coll P b c ≤ 0) :
    compareDocs coll P a c ≤ 0 := by
  rw [compareDocs_le_iff coll P a b da db ha hb] at hab
  rw [compareDocs_le_iff coll P b c db dc hb hc] at hbc
  rw [compareDocs_le_iff coll P a c da dc ha hc]
  obtain ⟨h1, h2⟩ := hab
  obtain ⟨h3, h4⟩ := hbc
  refine ⟨fun h => h3 (h1 h), fun heq => ?_⟩
  by_cases hb1 : isDocProcessed P b = isDocProcessed P a
  · have l1 := h2 hb1.symm
    have l2 := h4 (hb1.trans heq)
    rcases l1 with hlt | ⟨heq1, hid1⟩ <;> rcases l2 with hlt2 | ⟨heq2, hid2⟩
    · exact Or.inl (lt_trans hlt hlt2)
    · exact Or.inl (by omega)
    · exact Or.inl (by omega)
    · exact Or.inr ⟨heq1.trans heq2, coll.le_trans a.id b.id c.id hid1 hid2⟩
  · cases hfa : isDocProcessed P a
    · have hbtrue : isDocProcessed P b = true := by
        cases hfb : isDocProcessed P b
        · exact absurd (hfb.trans hfa.symm) hb1
        · rfl
      have hcfalse := h3 hbtrue
      rw [← heq, hfa] at hcfalse
      cases hcfalse
    · exact absurd ((h1 hfa).trans hfa.symm) hb1

/-- Inserting a record with a parseable date into a sorted list of
records with parseable dates keeps the list sorted under the
comparator. -/
theorem sorted_orderedInsert_parsed (coll : Collation) (P : List String)
    (a : DocumentData) (l : List DocumentData)
    (ha : (parseDateMs a.date).isSome = true)
    (hl : ∀ x ∈ l, (parseDateMs x.date).isSome = true)
    (h : l.Pairwise (fun x y => compareDocs coll P x y ≤ 0)) :
    (List.orderedInsert (fun x y => compareDocs coll P x y ≤ 0) a l).Pairwise
      (fun x y => compareDocs coll P x y ≤ 0) := by
  induction l with
  | nil => simp [List.orderedInsert]
  | cons b t ih =>
      rw [List.pairwise_cons] at h
      obtain ⟨hb, ht⟩ := h
      by_cases hab : compareDocs coll P a b ≤ 0
      · rw [List.orderedInsert, if_pos hab, List.pairwise_cons]
        refine ⟨?_, List.pairwise_cons.mpr ⟨hb, ht⟩⟩
        intro y hy
        rcases List.mem_cons.mp hy with rfl | hyt
        · exact hab
        · obtain ⟨da, hda⟩ := Option.isSome_iff_exists.mp ha
          obtain ⟨dbv, hdb⟩ :=
            Option.isSome_iff_exists.mp (hl b (List.mem_cons_self b t))
          obtain ⟨dy, hdy⟩ :=
            Option.isSome_iff_exists.mp (hl y (List.mem_cons_of_mem b hyt))
          exact compareDocs_trans coll P hda hdb hdy hab (hb y hyt)
      · rw [List.orderedInsert, if_neg hab, List.pairwise_cons]
        constructor
        · intro y hy
          rcases (List.mem_orderedInsert _).mp hy with rfl | hyt
          · rcases compareDocs_total coll P y b with h1 | h1
            · exact absurd h1 hab
            · exact h1
          · exact hb y hyt
        · exact ih (fun x hx => hl x (List.mem_cons_of_mem b hx)) ht

/-- The insertion sort of any list of records with parseable dates is
sorted under the comparator. -/
theorem sorted_insertionSort_parsed (coll : Collation) (P : List String)
    (l : List DocumentData)
    (hl : ∀ x ∈ l, (parseDateMs x.date).isSome = true) :
    (List.insertionSort (fun x y => compareDocs coll P x y ≤ 0) l).Pairwise
      (fun x y => compareDocs coll P x y ≤ 0) := by
  induction l with
  | nil => simp [List.insertionSort]
  | cons a t ih =>
      rw [List.insertionSort]
      refine sorted_orderedInsert_parsed coll P a _
        (hl a (List.mem_cons_self a t))
        ?_ (ih (fun x hx => hl x (List.mem_cons_of_mem a hx)))
      intro x hx
      exact hl x (List.mem_cons_of_mem a
        ((List.perm_insertionSort _ t).mem_iff.mp hx))

/-- A pairwise property transfers along a pointwise implication that may
use membership of both elements. -/
theorem pairwise_imp_mem {α : Type} {R S : α → α → Prop} :
    ∀ {l : List α}, (∀ a b, a ∈ l → b ∈ l → R a b → S a b) →
      l.Pairwise R → l.Pairwise S := by
  intro l
  induction l with
  | nil =>
      intro _ _
      exact List.Pairwise.nil
  | cons x t ih =>
      intro himp hp
      rw [List.pairwise_cons] at hp ⊢
      obtain ⟨hx, ht⟩ := hp
      refine ⟨fun y hy => himp x y (List.mem_cons_self x t)
        (List.mem_cons_of_mem x hy) (hx y hy), ?_⟩
      exact ih (fun a b hha hhb => himp a b (List.mem_cons_of_mem x hha)
        (List.mem_cons_of_mem x hhb)) ht

/-- The worked ordering example of the spec. -/
def orderingExample : List DocumentData :=
  [{ id := "B", department := "", date := "2024-01-02", status := "Pending" },
   { id := "A", department := "", date := "2024-01-01", status := "Pending" },
   { id := "C", department := "", date := "2024-01-01", status := "For signing" }]

/-- A record that ties another on date, with a lower-case identifier. -/
def tieDocLower : DocumentData :=
  { id := "a", department := "", date := "2024-03-03", status := "Pending" }

/-- A record that ties `tieDocLower` on date, with an upper-case
identifier that precedes `a` in codepoint (lexical) order. -/
def tieDocUpper : DocumentData :=
  { id := "B", department := "", date := "2024-03-03", status := "Pending" }

/-- Counterexample to claim C5 as stated: date ties are broken by
`localeCompare`, the environment's locale collation, not by ascending
lexical (codepoint) order.  Under the default locale's characteristic
collation of ASCII letters (`caseFoldCollation`, where letter
differences outrank case so `a` sorts before `B`), two records tied on
date come out as `a` before `B`, although lexical ascending order puts
`B` (codepoint 66) before `a` (codepoint 97): the second identifier of
the output is lexically strictly below the first. -/
theorem c5_counterexample :
    (sidebarDocuments caseFoldCollation [tieDocUpper, tieDocLower] []).map
        (fun d => d.id) = ["a", "B"] ∧
    strLt "B" "a" = true := by
  decide

/-- Claim C5 amended: for every collation satisfying `localeCompare`'s
consistent-comparator contract and every snapshot whose dates are
well-formed calendar dates, the sidebar ordering is a permutation of
the snapshot in which a processed record never precedes a not-processed
one (processed means identifier in the processed set or status
`For signing`), and within one partition records appear by date
ascending with ties broken by the collation on identifiers — which is
ascending lexical order only where the collation agrees with it; the
spec's worked example orders to A, B, C under every collation, since no
comparison there reaches the identifier tie-break. -/
theorem c5_ordering (coll : Collation) (docs : List DocumentData)
    (P : List String)
    (hdates : ∀ d ∈ docs, (parseDateMs d.date).isSome = true) :
    List.Perm (sidebarDocuments coll docs P) docs ∧
    (sidebarDocuments coll docs P).Pairwise (fun a b =>
      (isDocProcessed P a = true → isDocProcessed P b = true) ∧
      (isDocProcessed P a = isDocProcessed P b →
        ∀ da db, parseDateMs a.date = some da → parseDateMs b.date = some db →
          (da < db ∨ (da = db ∧ coll.cmp a.id b.id ≤ 0)))) ∧
    (sidebarDocuments coll orderingExample []).map (fun d => d.id) =
      ["A", "B", "C"] := by
  refine ⟨List.perm_insertionSort _ docs, ?_, rfl⟩
  have hsort := sorted_insertionSort_parsed coll P docs hdates
  refine pairwise_imp_mem ?_ hsort
  intro a b hamem hbmem hr
  have hamem2 : a ∈ docs := (List.perm_insertionSort _ docs).mem_iff.mp hamem
  have hbmem2 : b ∈ docs := (List.perm_insertionSort _ docs).mem_iff.mp hbmem
  obtain ⟨da, hda⟩ := Option.isSome_iff_exists.mp (hdates a hamem2)
  obtain ⟨db, hdb⟩ := Option.isSome_iff_exists.mp (hdates b hbmem2)
  have hiff := (compareDocs_le_iff coll P a b da db hda hdb).mp hr
  refine ⟨hiff.1, fun heq da2 db2 hda2 hdb2 => ?_⟩
  have e1 : da2 = da := by
    rw [hda] at hda2
    exact (Option.some_inj.mp hda2).symm
  have e2 : db2 = db := by
    rw [hdb] at hdb2
    exact (Option.some_inj.mp hdb2).symm
  rw [e1, e2]
  exact hiff.2 heq

/-- Witness for the amended C5 at a concrete collation: the worked
example, whose dates all parse. -/
theorem c5_ordering_witness :
    (sidebarDocuments codepointCollation orderingExample []).map
      (fun d => d.id) = ["A", "B", "C"] :=
  (c5_ordering codepointCollation orderingExample [] (by decide)).2.2

/-- A record whose date string is not a well-formed date. -/
def badDateDocA : DocumentData :=
  { id := "A", department := "", date := "not a date", status := "Pending" }

/-- A second distinct record with an unparseable date. -/
def badDateDocB : DocumentData :=
  { id := "B", department := "", date := "also invalid", status := "Pending" }

/-- Counterexample to claim C8 as stated: with arbitrary string dates,
two distinct records (distinct identifiers, both dates invalid) compare
equal under the sidebar comparator — `new Date` yields `NaN`, the
comparator returns `NaN`, and ECMAScript treats that as `0` — so the
comparator is not a total order.  The `0` comes from the comparator's
invalid-date branch before any identifier comparison, so it is
independent of the collation; `codepointCollation` merely makes the
statement closed. -/
theorem c8_counterexample :
    badDateDocA.id ≠ badDateDocB.id ∧ badDateDocA ≠ badDateDocB ∧
    compareDocs codepointCollation [] badDateDocA badDateDocB = 0 ∧
    compareDocs codepointCollation [] badDateDocB badDateDocA = 0 := by
  decide

/-- Claim C8 amended: when both dates parse, the comparator returns `0`
exactly when the two records lie in the same partition, their dates
are equal, and `localeCompare` (the collation) ties their identifiers;
hence it is a total order precisely on snapshots whose dates parse and
whose identifiers the collation separates — unique identifiers alone do
not suffice, since the collation may tie distinct (e.g. canonically
equivalent) identifier strings.  Re-evaluating the ordering on the same
inputs is deterministic regardless, the ordering being a pure
function. -/
theorem c8_comparator_zero_iff (coll : Collation) (P : List String)
    (a b : DocumentData) (da db : Int) (ha : parseDateMs a.date = some da)
    (hb : parseDateMs b.date = some db) :
    (compareDocs coll P a b = 0 ↔
      (isDocProcessed P a = isDocProcessed P b ∧ da = db ∧
       coll.cmp a.id b.id = 0)) ∧
    (coll.cmp a.id b.id ≠ 0 → compareDocs coll P a b ≠ 0) := by
  have hmain : compareDocs coll P a b = 0 ↔
      (isDocProcessed P a = isDocProcessed P b ∧ da = db ∧
       coll.cmp a.id b.id = 0) := by
    unfold compareDocs
    cases hap : isDocProcessed P a <;> cases hbp : isDocProcessed P b
    · show dateCompare coll a b = 0 ↔ _
      unfold dateCompare
      rw [ha, hb]
      show (if da ≠ db then da - db else coll.cmp a.id b.id) = 0 ↔ _
      by_cases hd : da = db
      · rw [if_neg (not_not_intro hd)]
        simp [hd]
      · rw [if_pos hd]
        refine iff_of_false (fun h => hd (by omega)) (fun h => hd h.2.1)
    · show (-1 : Int) = 0 ↔ _
      refine iff_of_false (by norm_num) (fun h => absurd h.1 (by decide))
    · show (1 : Int) = 0 ↔ _
      refine iff_of_false (by norm_num) (fun h => absurd h.1 (by decide))
    · show dateCompare coll a b = 0 ↔ _
      unfold dateCompare
      rw [ha, hb]
      show (if da ≠ db then da - db else coll.cmp a.id b.id) = 0 ↔ _
      by_cases hd : da = db
      · rw [if_neg (not_not_intro hd)]
        simp [hd]
      · rw [if_pos hd]
        refine iff_of_false (fun h => hd (by omega)) (fun h => hd h.2.1)
  exact ⟨hmain, fun hcmp h0 => hcmp (hmain.mp h0).2.2⟩

/-- Witness for the amended C8: two same-date records whose identifiers
the collation separates never compare equal. -/
theorem c8_comparator_zero_iff_witness :
    compareDocs codepointCollation [] tieDocLower tieDocUpper ≠ 0 :=
  (c8_comparator_zero_iff codepointCollation [] tieDocLower tieDocUpper
    20240303 20240303 (by decide) (by decide)).2 (by decide)

/-- Counterexample to claim C1 as stated: cold-start suppression fails
over runs whose initial load fails.  Concretely, after a failed initial
load, the first successful fetch (a background poll returning one
record) plays the notification sound and adds the record's identifier
to the unseen set, because `checkForNewRecords` diffs against the empty
snapshot while only `loadData` skips the diff. -/
theorem c1_counterexample : ¬ ColdStartSuppression := by
  intro h
  have h2 := h [SyncEvent.load none 0]
    (SyncEvent.poll true (some [sampleDoc]) 30 true)
    (by decide) (by decide)
  unfold noArrivalEffects at h2
  exact absurd h2.1.1 (by decide)

/-- Claim C1 amended: in every run from the startup state in which all
fetches before the initial-load event failed, a succeeding initial load
(`loadData`) establishes the baseline snapshot without firing any
arrival notification and without touching the unseen set — cold-start
suppression holds exactly when the first successful fetch is the
initial load. -/
theorem c1_cold_start_amended (pre : List SyncEvent)
    (docs : List DocumentData) (now : Nat)
    (_hpre : ∀ e' ∈ pre, eventResult e' = none) :
    noArrivalEffects
      (stepEvent (runState startupState pre)
        (SyncEvent.load (some docs) now)).2 ∧
    (stepEvent (runState startupState pre)
        (SyncEvent.load (some docs) now)).1.newDocIds =
      (runState startupState pre).newDocIds := by
  exact ⟨⟨rfl, rfl, rfl, rfl, rfl⟩, rfl⟩

/-- Witness for the amended C1: the run in which the initial load is the
first event and succeeds with one record. -/
theorem c1_cold_start_amended_witness :
    noArrivalEffects
      (stepEvent (runState startupState [])
        (SyncEvent.load (some [sampleDoc]) 30)).2 ∧
    (stepEvent (runState startupState [])
        (SyncEvent.load (some [sampleDoc]) 30)).1.newDocIds =
      (runState startupState []).newDocIds :=
  c1_cold_start_amended [] [sampleDoc] 30 (by simp)
